import Mathlib

/-!
# qsave: a verification development

A shallow embedding of `main.go` of `qsave`, a command-line tool that keeps
named text snippets ("queries") in one SQLite table, and theorems about it.

What is modelled, and how:

* The table `queries` is a list of rows in rowid order together with the
  `sqlite_sequence` counter that `AUTOINCREMENT` maintains.  Every SQL statement
  that occurs in `main.go` gets one function on that state, following SQLite's
  semantics for it (`UNIQUE` on `name`, the length limit on a row, `LIKE` with
  its wildcards, ASCII case folding, C-string comparison, character decoding and
  pattern length limit, ...).  Error texts are those of the `modernc.org/sqlite`
  driver.
* Names of queries are command-line arguments, far shorter than SQLite's length
  limit; only bodies, which come out of the editor's file, are checked against
  it when they are bound.  Texts of 2^31 bytes or more, whose length does not fit
  the 32-bit length argument of `sqlite3_bind_text`, are outside the model.
* Go strings are Lean strings (sequences of Unicode scalar values); byte
  strings that are not valid UTF-8 are outside the model.
* What the process reads from its surroundings (the `EDITOR` variable, the
  operating system name, the clock, the temporary file, what the editor leaves
  in the file, the clipboard) is a record `Env` passed explicitly.
* Standard output is the list of chunks written, in order.  `log.Fatal` and a
  run-time panic are outcomes of their own.
* The database connection is assumed healthy: a statement fails only for a
  reason SQLite itself gives (a constraint, a full rowid space, a row or a
  pattern that is too long), never for an I/O error.
-/

namespace Qsave

/-! ## The table -/

/-- One row of table `queries` (`main.go`, lines 32-37). -/
structure Query where
  id : Nat
  name : String
  created_at : String
  body : String
deriving DecidableEq, Repr

/-- The database: the rows of `queries` in rowid order and the `sqlite_sequence`
entry of the table (the largest rowid ever handed out). -/
structure DB where
  rows : List Query
  seq : Nat
deriving DecidableEq, Repr

/-- Largest rowid SQLite can hand out (a signed 64-bit integer). -/
def MAX_ROWID : Nat := 2 ^ 63 - 1

/-- Default value of `SQLITE_LIMIT_LIKE_PATTERN_LENGTH`, in bytes. -/
def SQLITE_MAX_LIKE_PATTERN_LENGTH : Nat := 50000

/-- Default value of `SQLITE_LIMIT_LENGTH`: the largest number of bytes of a
string and of a row. -/
def SQLITE_MAX_LENGTH : Nat := 1000000000

/-- Number of bytes of SQLite's variable-length integer holding `v`
(`sqlite3VarintLen`): one byte for every 7 bits. -/
def varintLen (v : Nat) : Nat :=
  if v < 2 ^ 7 then 1
  else if v < 2 ^ 14 then 2
  else if v < 2 ^ 21 then 3
  else if v < 2 ^ 28 then 4
  else if v < 2 ^ 35 then 5
  else if v < 2 ^ 42 then 6
  else if v < 2 ^ 49 then 7
  else if v < 2 ^ 56 then 8
  else 9

/-- Bytes a text value takes in a row record: its serial type `2 * n + 13` in
the header, and its `n` bytes of UTF-8. -/
def textSize (s : String) : Nat :=
  varintLen (2 * s.utf8ByteSize + 13) + s.utf8ByteSize

/-- Size in bytes of the record of a row of `queries` (`OP_MakeRecord`): one
byte for the header length, one for the `id` column (stored as NULL, the rowid
holds it), and the three texts. -/
def recordSize (name created_at body : String) : Nat :=
  2 + textSize name + textSize created_at + textSize body

/-- Largest `id` among the rows (0 for an empty table). -/
def maxRowid (rows : List Query) : Nat :=
  rows.foldl (fun m r => max m r.id) 0

/-- The rowid before the one `AUTOINCREMENT` picks next: the larger of the
`sqlite_sequence` entry and the largest rowid in the table. -/
def DB.lastRowid (db : DB) : Nat :=
  max db.seq (maxRowid db.rows)

/-- Statement `INSERT INTO queries (name, body) VALUES (?, ?)`.  A body longer
than `SQLITE_MAX_LENGTH` is refused when it is bound.  The new rowid is one more
than `lastRowid` (`SQLITE_FULL` when there is none left), `created_at` takes its
default `CURRENT_TIMESTAMP`, the `UNIQUE` constraint on `name` is checked, and
the record of the row must not exceed `SQLITE_MAX_LENGTH`.  Every failure aborts
the statement, which leaves the database as it was. -/
def DB.insert (db : DB) (now name body : String) : Except String DB :=
  if body.utf8ByteSize > SQLITE_MAX_LENGTH then
    .error "string or blob too big (18)"
  else if db.lastRowid ≥ MAX_ROWID then
    .error "database or disk is full (13)"
  else if db.rows.any (fun r => r.name == name) then
    .error "constraint failed: UNIQUE constraint failed: queries.name (2067)"
  else if recordSize name now body > SQLITE_MAX_LENGTH then
    .error "string or blob too big (18)"
  else
    .ok { rows := db.rows ++ [{ id := db.lastRowid + 1, name := name, created_at := now, body := body }],
          seq := db.lastRowid + 1 }

/-- Does the row `r` with its body replaced by `newBody` exceed the length limit? -/
def rowTooBig (newBody : String) (r : Query) : Bool :=
  decide (recordSize r.name r.created_at newBody > SQLITE_MAX_LENGTH)

/-- Statement `UPDATE queries SET body = ? WHERE name = ?`.  A body longer than
`SQLITE_MAX_LENGTH` is refused when it is bound, and the statement is aborted,
the table left as it was, when the new record of a row named `name` would exceed
`SQLITE_MAX_LENGTH`. -/
def DB.updateBody (db : DB) (newBody name : String) : Except String DB :=
  if newBody.utf8ByteSize > SQLITE_MAX_LENGTH then
    .error "string or blob too big (18)"
  else if db.rows.any (fun r => r.name == name && rowTooBig newBody r) then
    .error "string or blob too big (18)"
  else
    .ok { db with rows := db.rows.map (fun r => if r.name = name then { r with body := newBody } else r) }

/-- Statement `DELETE FROM queries WHERE name = ?`. -/
def DB.delete (db : DB) (name : String) : DB :=
  { db with rows := db.rows.filter (fun r => r.name != name) }

/-- Statement `SELECT name, body FROM queries WHERE name = ?`: all result rows. -/
def DB.selectByName (db : DB) (name : String) : List (String × String) :=
  (db.rows.filter (fun r => r.name == name)).map (fun r => (r.name, r.body))

/-- What `QueryRow(...).Scan(&name, &body)` yields: the first result row, or
`none` for `sql.ErrNoRows`. -/
def queryRow (rs : List (String × String)) : Option (String × String) :=
  rs.head?

/-- Byte order of two texts in UTF-8 (`memcmp`, the shorter first), which is the
order of their code points. -/
def charsLt : List Char → List Char → Bool
  | _, [] => false
  | [], _ :: _ => true
  | a :: as, b :: bs => decide (a.toNat < b.toNat) || (a.toNat == b.toNat && charsLt as bs)

/-- Insert a name into a list of names kept in byte order. -/
def insertName (n : String) : List String → List String
  | [] => [n]
  | m :: ms => if charsLt m.data n.data then m :: insertName n ms else n :: m :: ms

/-- Names in byte order, which for UTF-8 is the order of the code points. -/
def sortNames : List String → List String
  | [] => []
  | n :: ns => insertName n (sortNames ns)

/-- Statement `SELECT name FROM queries`: SQLite answers it from the index of
the `UNIQUE` constraint, so the names come in byte order. -/
def DB.selectNames (db : DB) : List String :=
  sortNames (db.rows.map (fun r => r.name))

/-! ## SQLite's LIKE -/

/-- ASCII lower-casing on character codes (`sqlite3Tolower`). -/
def lowerCode (n : Nat) : Nat :=
  if 65 ≤ n ∧ n ≤ 90 then n + 32 else n

/-- Two characters that are not wildcards match when they are equal, or are both
ASCII and equal after lower-casing. -/
def likeChar (c c2 : Char) : Bool :=
  c == c2 || (decide (c.toNat < 128) && decide (c2.toNat < 128) && lowerCode c.toNat == lowerCode c2.toNat)

/-- Does `f` hold of some suffix of the list (the list itself and `[]` included)? -/
def anySuffix (f : List Char → Bool) : List Char → Bool
  | [] => f []
  | c :: s => f (c :: s) || anySuffix f s

/-- The LIKE matcher (`patternCompare` with `%`, `_`, no escape character, case
folding on): `%` matches any run of characters, `_` any one character, any other
character matches as `likeChar` says.  First argument: the pattern. -/
def patternCompare : List Char → List Char → Bool
  | [], s => s.isEmpty
  | c :: p, s =>
    if c = '%' then anySuffix (patternCompare p) s
    else
      match s with
      | [] => false
      | c2 :: s2 => (c == '_' || likeChar c c2) && patternCompare p s2

/-- The matcher reads both texts as C strings: up to the first NUL character. -/
def cstr (l : List Char) : List Char :=
  l.takeWhile (fun c => c != Char.ofNat 0)

/-- The character the matcher decodes from the UTF-8 of `c` (`sqlite3Utf8Read`):
U+FFFE and U+FFFF are read as U+FFFD, every other character as itself. -/
def utf8Read (c : Char) : Char :=
  if c.toNat = 0xFFFE ∨ c.toNat = 0xFFFF then Char.ofNat 0xFFFD else c

/-- Expression `body LIKE pattern` on one row (`likeFunc`): both texts are cut
at their first NUL, decoded, and compared. -/
def like (pattern body : String) : Bool :=
  patternCompare ((cstr pattern.data).map utf8Read) ((cstr body.data).map utf8Read)

/-- Statement `SELECT name, body FROM queries WHERE body LIKE ?`.  A pattern of
more than `SQLITE_MAX_LIKE_PATTERN_LENGTH` bytes makes the LIKE function raise
an error on the first row it is evaluated on. -/
def DB.selectLike (db : DB) (pattern : String) : Except String (List (String × String)) :=
  if db.rows ≠ [] ∧ pattern.utf8ByteSize > SQLITE_MAX_LIKE_PATTERN_LENGTH then
    .error "SQL logic error: LIKE or GLOB pattern too complex (1)"
  else
    .ok ((db.rows.filter (fun r => like pattern r.body)).map (fun r => (r.name, r.body)))

/-! ## Outcomes -/

/-- How a call ends: it returns a value, the process exits through `log.Fatal`,
or the process dies of a run-time panic. -/
inductive Outcome (α : Type) where
  | ret (a : α)
  | fatal (msg : String)
  | panic (msg : String)
deriving DecidableEq, Repr

/-- A call that works on the database: how it ended, what it wrote to standard
output, and the database afterwards. -/
structure Run (α : Type) where
  result : Outcome α
  out : List String
  db : DB
deriving DecidableEq, Repr

/-- The surroundings of one process. -/
structure Env where
  /-- Value of `os.Getenv("EDITOR")`, `""` when unset. -/
  EDITOR : String
  /-- Value of `runtime.GOOS`. -/
  GOOS : String
  /-- Value of `CURRENT_TIMESTAMP`. -/
  now : String
  /-- Result of `os.CreateTemp`: the file name, or an error. -/
  createTemp : Except String String
  /-- Error of `tmpFile.WriteString content`, if any. -/
  writeString : String → Option String
  /-- Error of running executable `exe` with `args` on a file holding `content`, if any. -/
  run : (exe : String) → (args : List String) → (content : String) → Option String
  /-- Result of `os.ReadFile` once the editor has exited: contents and error. -/
  readFile : (exe : String) → (args : List String) → (content : String) → String × Option String
  /-- Error of `clipboard.WriteAll`, if any. -/
  clipboard : String → Option String

/-! ## Editor bridge -/

/-- Function `getEditor` (lines 46-57). -/
def getEditor (env : Env) : String :=
  if env.EDITOR ≠ "" then env.EDITOR
  else if env.GOOS = "windows" then "notepad"
  else "vim"

/-- White space as `unicode.IsSpace` defines it. -/
def isSpace (c : Char) : Bool :=
  let n := c.toNat
  n == 0x09 || n == 0x0A || n == 0x0B || n == 0x0C || n == 0x0D || n == 0x20 ||
  n == 0x85 || n == 0xA0 || n == 0x1680 || (decide (0x2000 ≤ n) && decide (n ≤ 0x200A)) ||
  n == 0x2028 || n == 0x2029 || n == 0x202F || n == 0x205F || n == 0x3000

/-- Worker of `fields`: `cur` is the field being read, reversed. -/
def fieldsAux (cur : List Char) : List Char → List String
  | [] => if cur = [] then [] else [String.mk cur.reverse]
  | c :: cs =>
    if isSpace c then
      if cur = [] then fieldsAux [] cs else String.mk cur.reverse :: fieldsAux [] cs
    else fieldsAux (c :: cur) cs

/-- Library function `strings.Fields`: the maximal runs of non-space characters. -/
def fields (s : String) : List String :=
  fieldsAux [] s.data

/-- The loop of lines 75-80: append every argument that is not a wait flag. -/
def filterArgs (parts : List String) : List String :=
  parts.foldl (fun filteredArgs arg =>
    if arg ≠ "--wait" ∧ arg ≠ "-w" then filteredArgs ++ [arg] else filteredArgs) []

/-- Lines 74-83 of `openEditor`: executable and arguments of the command, or
`none` when `parts[1:]` is out of range because there is no field. -/
def editorCommand (editorFull tmpName : String) : Option (String × List String) :=
  match fields editorFull with
  | [] => none
  | executable :: rest => some (executable, filterArgs rest ++ [tmpName])

/-- Function `openEditor` (lines 59-99): the pair it returns, or a panic. -/
def openEditor (env : Env) (initialContent : String) : Outcome (String × Option String) :=
  match env.createTemp with
  | .error e => .ret ("", some e)
  | .ok tmpName =>
    match (if initialContent ≠ "" then env.writeString initialContent else none) with
    | some e => .ret ("", some e)
    | none =>
      match editorCommand (getEditor env) tmpName with
      | none => .panic "runtime error: slice bounds out of range [1:0]"
      | some (executable, args) =>
        match env.run executable args initialContent with
        | some e => .ret ("", some e)
        | none => .ret (env.readFile executable args initialContent)

/-! ## Handlers -/

/-- Function `onSaveSuccess` (lines 101-121).  The value returned is the Go
error: `none` is `nil`. -/
def onSaveSuccess (queryName body : String) (now : String) (db : DB) : Run (Option String) :=
  if body = "" then
    { result := .ret none, out := ["Editor was empty, please type a query to save it\n"], db := db }
  else
    match db.insert now queryName body with
    | .error e => { result := .ret (some ("could not execute insert: " ++ e)), out := [], db := db }
    | .ok db2 => { result := .ret none, out := ["Query saved successfully!\n"], db := db2 }

/-- Function `saveQuery` (lines 123-131): what `onSaveSuccess` returns is dropped. -/
def saveQuery (env : Env) (queryName : String) (db : DB) : Run (Option String) :=
  match openEditor env "" with
  | .panic m => { result := .panic m, out := [], db := db }
  | .fatal m => { result := .fatal m, out := [], db := db }
  | .ret (_, some e) => { result := .ret (some ("Could not edit query, error: " ++ e)), out := [], db := db }
  | .ret (content, none) =>
    let r := onSaveSuccess queryName content env.now db
    { result := .ret none, out := r.out, db := r.db }

/-- Function `updateQuery` (lines 133-145). -/
def updateQuery (name newBody : String) (db : DB) : Run (Option String) :=
  if newBody = "" then
    { result := .ret none,
      out := ["Query body was empty, if you want to delete a query use the delete command\n"], db := db }
  else
    match db.updateBody newBody name with
    | .error e => { result := .ret (some ("could not update query: " ++ e)), out := [], db := db }
    | .ok db2 => { result := .ret none, out := ["Query updated successfully!\n"], db := db2 }

/-- Function `editQuery` (lines 147-165). -/
def editQuery (env : Env) (queryName : String) (db : DB) : Run (Option String) :=
  match queryRow (db.selectByName queryName) with
  | none => { result := .ret (some ("no query found with name " ++ queryName)), out := [], db := db }
  | some (_, body) =>
    match openEditor env body with
    | .panic m => { result := .panic m, out := [], db := db }
    | .fatal m => { result := .fatal m, out := [], db := db }
    | .ret (_, some e) => { result := .ret (some ("Could not edit query, error: " ++ e)), out := [], db := db }
    | .ret (content, none) =>
      let r := updateQuery queryName content db
      { result := .ret none, out := r.out, db := r.db }

/-- Function `deleteQuery` (lines 167-182). -/
def deleteQuery (queryName : String) (db : DB) : Run (Option String) :=
  { result := .ret none, out := ["Query deleted successfully!\n"], db := db.delete queryName }

/-- One block printed by `fmt.Printf("--- NAME: %s ---\n%s\n\n", name, body)`. -/
def formatQuery (nb : String × String) : String :=
  "--- NAME: " ++ nb.1 ++ " ---\n" ++ nb.2 ++ "\n\n"

/-- Function `searchQuery` (lines 184-195). -/
def searchQuery (searchToken : String) (db : DB) : Run Unit :=
  match db.selectLike ("%" ++ searchToken ++ "%") with
  | .error e => { result := .fatal e, out := [], db := db }
  | .ok rows => { result := .ret (), out := rows.map formatQuery, db := db }

/-- Function `listQueries` (lines 197-210). -/
def listQueries (db : DB) : Run Unit :=
  { result := .ret (),
    out := "Saved Queries:\n" :: db.selectNames.map (fun name => "  - " ++ name ++ "\n"),
    db := db }

/-- Function `showQuery` (lines 212-231). -/
def showQuery (env : Env) (queryName : String) (db : DB) : Run (Option String) :=
  match queryRow (db.selectByName queryName) with
  | none => { result := .ret (some ("no query found with name " ++ queryName)), out := [], db := db }
  | some (name, body) =>
    match env.clipboard body with
    | some e =>
      { result := .ret (some ("failed to copy to clipboard: " ++ e)), out := [formatQuery (name, body)], db := db }
    | none =>
      { result := .ret none, out := [formatQuery (name, body), "Query copied to clipboard!\n"], db := db }

/-! ## Dispatcher -/

/-- A handler called as a statement: the error it returns is dropped, a fatal
exit or a panic ends the process. -/
def discard {α : Type} (r : Run α) : Run Unit :=
  match r.result with
  | .ret _ => { result := .ret (), out := r.out, db := r.db }
  | .fatal m => { result := .fatal m, out := r.out, db := r.db }
  | .panic m => { result := .panic m, out := r.out, db := r.db }

/-- The exit through `log.Fatal msg` before anything else was done. -/
def fatalExit (msg : String) (db : DB) : Run Unit :=
  { result := .fatal msg, out := [], db := db }

/-- Function `main` (lines 233-276) on an open database; `args` is `os.Args`,
program name first. -/
def main (env : Env) (args : List String) (db : DB) : Run Unit :=
  match args with
  | [] => { result := .ret (), out := ["Usage: qsave [add|list|search|delete] [args]\n"], db := db }
  | [_] => { result := .ret (), out := ["Usage: qsave [add|list|search|delete] [args]\n"], db := db }
  | _ :: command :: rest =>
    if command = "add" then
      match rest with
      | [] => fatalExit "Please provide a name for the query" db
      | a :: _ => discard (saveQuery env a db)
    else if command = "search" then
      match rest with
      | [] => fatalExit "Please provide a search term" db
      | a :: _ => searchQuery a db
    else if command = "delete" then
      match rest with
      | [] => fatalExit "Please provide a name for the query to delete" db
      | a :: _ => discard (deleteQuery a db)
    else if command = "edit" then
      match rest with
      | [] => fatalExit "Please provide a name for the query to edit" db
      | a :: _ => discard (editQuery env a db)
    else if command = "list" then
      listQueries db
    else if command = "show" then
      match rest with
      | [] => fatalExit "Please provide a name for the query to show" db
      | a :: _ => discard (showQuery env a db)
    else
      { result := .ret (), out := [], db := db }

/-- The database after a sequence of runs of the program, each in its own
surroundings and with its own arguments. -/
def runAll : List (Env × List String) → DB → DB
  | [], db => db
  | (env, args) :: rest, db => runAll rest (main env args db).db

/-- A quiet environment for examples: `EDITOR` unset, a working temporary file,
an editor that leaves `text` in the file, a working clipboard. -/
def quietEnv (text : String) : Env :=
  { EDITOR := "", GOOS := "linux", now := "2024-01-01 00:00:00",
    createTemp := .ok "/tmp/example-1.txt",
    writeString := fun _ => none,
    run := fun _ _ _ => none,
    readFile := fun _ _ _ => (text, none),
    clipboard := fun _ => none }

/-! ## Statements of the specification, as predicates -/

/-- The text `s` occurs in `body` as a block of consecutive characters. -/
def literalSubstring (s body : List Char) : Prop :=
  ∃ u v, body = u ++ s ++ v

/-- The characters `c` and `d` are the same, or one is an ASCII capital letter
and the other the small letter that goes with it. -/
def sameUpToCase (c d : Char) : Prop :=
  c = d ∨ (65 ≤ c.toNat ∧ c.toNat ≤ 90 ∧ d.toNat = c.toNat + 32) ∨
    (65 ≤ d.toNat ∧ d.toNat ≤ 90 ∧ c.toNat = d.toNat + 32)

/-- One of the characters U+FFFD, U+FFFE and U+FFFF, which LIKE does not tell
apart. -/
def replacementLike (c : Char) : Prop :=
  c.toNat = 0xFFFD ∨ c.toNat = 0xFFFE ∨ c.toNat = 0xFFFF

/-- Character `c` of a search string accepts character `d` of a body: `c` is the
wildcard `_`, or the two are the same up to ASCII case, or both are among
U+FFFD, U+FFFE, U+FFFF. -/
def tokenCharMatches (c d : Char) : Prop :=
  c = '_' ∨ sameUpToCase c d ∨ (replacementLike c ∧ replacementLike d)

/-- A character that LIKE gives no special treatment when it stands in a
pattern: not a wildcard, not NUL, not an ASCII letter, not one of U+FFFD,
U+FFFE, U+FFFF. -/
def plainChar (c : Char) : Prop :=
  c ≠ '%' ∧ c ≠ '_' ∧ c ≠ Char.ofNat 0 ∧
    ¬ (65 ≤ c.toNat ∧ c.toNat ≤ 90) ∧ ¬ (97 ≤ c.toNat ∧ c.toNat ≤ 122) ∧ ¬ replacementLike c

/-- How `UPDATE queries SET body = newBody WHERE name = n` relates a row before
to the row after. -/
def updatedRow (n newBody : String) (r r2 : Query) : Prop :=
  r2.id = r.id ∧ r2.name = r.name ∧ r2.created_at = r.created_at ∧
    r2.body = (if r.name = n then newBody else r.body)

/-- Every stored body is non-empty. -/
def bodiesNonEmpty (db : DB) : Prop :=
  ∀ r ∈ db.rows, r.body ≠ ""

/-! ## Examples of databases -/

/-- A table with the single query `a`, whose body is `abc`. -/
def oneQuery : DB :=
  { rows := [{ id := 1, name := "a", created_at := "2024-01-01 00:00:00", body := "abc" }], seq := 1 }

/-- The table of the scenario "add a with body foo, add b with body foobar". -/
def twoQueries : DB :=
  { rows := [{ id := 1, name := "a", created_at := "2024-01-01 00:00:00", body := "foo" },
             { id := 2, name := "b", created_at := "2024-01-02 00:00:00", body := "foobar" }],
    seq := 2 }

/-- A table with the single query `r`, whose body is `x`, U+FFFF, `y`. -/
def replacementQuery : DB :=
  { rows := [{ id := 1, name := "r", created_at := "2024-01-01 00:00:00", body := "x\uFFFFy" }], seq := 1 }

/-- A body of 1000000000 bytes, each the letter `x`. -/
def hugeBody : String :=
  String.mk (List.replicate 1000000000 'x')

/-! ## Lemmas on LIKE -/

theorem anySuffix_iff (f : List Char → Bool) (s : List Char) :
    anySuffix f s = true ↔ ∃ u v, s = u ++ v ∧ f v = true := by
  induction s with
  | nil =>
    constructor
    · intro h
      exact ⟨[], [], rfl, h⟩
    · rintro ⟨u, v, huv, hf⟩
      have hv : v = [] := (List.append_eq_nil.mp huv.symm).2
      subst hv
      exact hf
  | cons c s ih =>
    simp only [anySuffix, Bool.or_eq_true]
    constructor
    · rintro (h | h)
      · exact ⟨[], c :: s, rfl, h⟩
      · obtain ⟨u, v, huv, hf⟩ := ih.mp h
        exact ⟨c :: u, v, by rw [huv]; rfl, hf⟩
    · rintro ⟨u, v, huv, hf⟩
      cases u with
      | nil =>
        left
        have hv : v = c :: s := huv.symm
        rw [← hv]
        exact hf
      | cons d u =>
        right
        have hs : s = u ++ v := by
          have h2 : c :: s = d :: (u ++ v) := huv
          injection h2
        exact ih.mpr ⟨u, v, hs, hf⟩

theorem anySuffix_map (f : List Char → Bool) (g : Char → Char) (l : List Char) :
    anySuffix f (l.map g) = true ↔ ∃ u v, l = u ++ v ∧ f (v.map g) = true := by
  rw [anySuffix_iff]
  constructor
  · rintro ⟨U, V, h, hf⟩
    obtain ⟨u, v, h1, _, h3⟩ := List.map_eq_append_iff.mp h
    exact ⟨u, v, h1, by rw [h3]; exact hf⟩
  · rintro ⟨u, v, h, hf⟩
    exact ⟨u.map g, v.map g, by rw [h, List.map_append], hf⟩

theorem char_eq_of_toNat {c d : Char} (h : c.toNat = d.toNat) : c = d := by
  apply Char.ext
  apply UInt32.ext
  exact h

theorem toNat_replacement : (Char.ofNat 0xFFFD).toNat = 0xFFFD := by decide

theorem likeChar_self (c : Char) : likeChar c c = true := by
  simp [likeChar]

/-- The comparison of two decoded characters is equality up to ASCII case. -/
theorem likeChar_iff (c d : Char) : likeChar c d = true ↔ sameUpToCase c d := by
  unfold sameUpToCase
  simp only [likeChar, Bool.or_eq_true, Bool.and_eq_true, beq_iff_eq, decide_eq_true_eq]
  unfold lowerCode
  constructor
  · rintro (h | ⟨⟨_, _⟩, h3⟩)
    · exact Or.inl h
    · split_ifs at h3 with hc hd hd
      · exact Or.inl (char_eq_of_toNat (by omega))
      · exact Or.inr (Or.inl ⟨hc.1, hc.2, h3.symm⟩)
      · exact Or.inr (Or.inr ⟨hd.1, hd.2, h3⟩)
      · exact Or.inl (char_eq_of_toNat h3)
  · rintro (h | ⟨h1, h2, h3⟩ | ⟨h1, h2, h3⟩)
    · exact Or.inl h
    · refine Or.inr ⟨⟨by omega, by omega⟩, ?_⟩
      split_ifs <;> omega
    · refine Or.inr ⟨⟨by omega, by omega⟩, ?_⟩
      split_ifs <;> omega

theorem utf8Read_of_not_replacement (c : Char) (h : ¬ replacementLike c) : utf8Read c = c := by
  unfold utf8Read
  rw [if_neg]
  intro h2
  exact h (Or.inr h2)

theorem utf8Read_of_replacement (c : Char) (h : replacementLike c) :
    utf8Read c = Char.ofNat 0xFFFD := by
  unfold utf8Read
  split_ifs with h2
  · rfl
  · apply char_eq_of_toNat
    rw [toNat_replacement]
    rcases h with h | h | h
    · exact h
    · exact absurd (Or.inl h) h2
    · exact absurd (Or.inr h) h2

/-- Decoding changes nothing about a character below U+FFFD, `%` and `_` among
them. -/
theorem utf8Read_eq_iff (c k : Char) (hk : k.toNat < 0xFFFD) : utf8Read c = k ↔ c = k := by
  by_cases h : replacementLike c
  · rw [utf8Read_of_replacement c h]
    constructor
    · intro e
      have h2 := congrArg Char.toNat e
      rw [toNat_replacement] at h2
      omega
    · intro e
      subst e
      unfold replacementLike at h
      omega
  · rw [utf8Read_of_not_replacement c h]

/-- Two characters as the matcher decodes and compares them. -/
theorem likeChar_utf8Read (c d : Char) :
    likeChar (utf8Read c) (utf8Read d) = true ↔
      (sameUpToCase c d ∨ (replacementLike c ∧ replacementLike d)) := by
  by_cases hc : replacementLike c <;> by_cases hd : replacementLike d
  · rw [utf8Read_of_replacement c hc, utf8Read_of_replacement d hd]
    exact ⟨fun _ => Or.inr ⟨hc, hd⟩, fun _ => likeChar_self _⟩
  · rw [utf8Read_of_replacement c hc, utf8Read_of_not_replacement d hd, likeChar_iff]
    unfold sameUpToCase
    unfold replacementLike at hc hd
    rw [toNat_replacement]
    constructor
    · rintro (h | ⟨h1, h2, _⟩ | ⟨h1, h2, h3⟩)
      · exfalso
        apply hd
        left
        rw [← h, toNat_replacement]
      · omega
      · omega
    · rintro ((h | ⟨h1, h2, _⟩ | ⟨h1, h2, h3⟩) | ⟨_, h⟩)
      · exfalso
        apply hd
        rw [← h]
        exact hc
      · omega
      · omega
      · exact absurd h hd
  · rw [utf8Read_of_not_replacement c hc, utf8Read_of_replacement d hd, likeChar_iff]
    unfold sameUpToCase
    unfold replacementLike at hc hd
    rw [toNat_replacement]
    constructor
    · rintro (h | ⟨h1, h2, h3⟩ | ⟨h1, h2, _⟩)
      · exfalso
        apply hc
        left
        rw [h, toNat_replacement]
      · omega
      · omega
    · rintro ((h | ⟨h1, h2, h3⟩ | ⟨h1, h2, _⟩) | ⟨h, _⟩)
      · exfalso
        apply hc
        rw [h]
        exact hd
      · omega
      · omega
      · exact absurd h hc
  · rw [utf8Read_of_not_replacement c hc, utf8Read_of_not_replacement d hd, likeChar_iff]
    constructor
    · exact fun h => Or.inl h
    · rintro (h | ⟨h, _⟩)
      · exact h
      · exact absurd h hc

theorem tokenCharMatches_iff (c d : Char) :
    (utf8Read c == '_' || likeChar (utf8Read c) (utf8Read d)) = true ↔ tokenCharMatches c d := by
  unfold tokenCharMatches
  rw [Bool.or_eq_true, beq_iff_eq, utf8Read_eq_iff c '_' (by decide), likeChar_utf8Read]

theorem tokenCharMatches_self (c : Char) : tokenCharMatches c c :=
  Or.inr (Or.inl (Or.inl rfl))

theorem tokenCharMatches_plain (c d : Char) (hc : plainChar c) (h : tokenCharMatches c d) :
    c = d := by
  obtain ⟨_, h2, _, hup, hlow, hrep⟩ := hc
  rcases h with h | (h | ⟨h3, h4, h5⟩ | ⟨h3, h4, h5⟩) | ⟨h, _⟩
  · exact absurd h h2
  · exact h
  · exact absurd ⟨h3, h4⟩ hup
  · exfalso
    apply hlow
    omega
  · exact absurd h hrep

theorem patternCompare_percent (s : List Char) : patternCompare ['%'] s = true := by
  simp only [patternCompare, if_true]
  exact (anySuffix_iff _ s).mpr ⟨s, [], by simp, rfl⟩

/-- A pattern matches itself, wildcards included, so a text that starts with a
copy of the pattern's head is matched whenever the rest is. -/
theorem patternCompare_append_self (t q v : List Char) (h : patternCompare q v = true) :
    patternCompare (t ++ q) (t ++ v) = true := by
  induction t with
  | nil => exact h
  | cons c t ih =>
    by_cases hc : c = '%'
    · subst hc
      simp only [List.cons_append, patternCompare, if_true]
      exact (anySuffix_iff _ _).mpr ⟨['%'], t ++ v, rfl, ih⟩
    · simp only [List.cons_append, patternCompare, if_neg hc, Bool.and_eq_true, Bool.or_eq_true]
      exact ⟨Or.inr (likeChar_self c), ih⟩

/-- Matching a pattern made of two parts: the text splits into a part for each. -/
theorem patternCompare_append (p q t : List Char) :
    patternCompare (p ++ q) t = true ↔
      ∃ t1 t2, t = t1 ++ t2 ∧ patternCompare p t1 = true ∧ patternCompare q t2 = true := by
  induction p generalizing t with
  | nil =>
    simp only [List.nil_append]
    constructor
    · intro h
      exact ⟨[], t, rfl, rfl, h⟩
    · rintro ⟨t1, t2, ht, h1, h2⟩
      have e : t1 = [] := by
        cases t1 with
        | nil => rfl
        | cons a l => simp [patternCompare] at h1
      subst e
      rw [ht]
      exact h2
  | cons c p ih =>
    by_cases hc : c = '%'
    · subst hc
      simp only [List.cons_append, patternCompare, if_true]
      rw [anySuffix_iff]
      constructor
      · rintro ⟨u, v, ht, hv⟩
        obtain ⟨t1, t2, hv2, h1, h2⟩ := (ih v).mp hv
        exact ⟨u ++ t1, t2, by rw [ht, hv2, List.append_assoc],
          (anySuffix_iff _ _).mpr ⟨u, t1, rfl, h1⟩, h2⟩
      · rintro ⟨t1, t2, ht, h1, h2⟩
        obtain ⟨u, v, ht1, hv⟩ := (anySuffix_iff _ _).mp h1
        exact ⟨u, v ++ t2, by rw [ht, ht1, List.append_assoc], (ih _).mpr ⟨v, t2, rfl, hv, h2⟩⟩
    · cases t with
      | nil =>
        constructor
        · intro h
          simp [patternCompare, hc] at h
        · rintro ⟨t1, t2, ht, h1, _⟩
          have e : t1 = [] := (List.append_eq_nil.mp ht.symm).1
          subst e
          simp [patternCompare, hc] at h1
      | cons d t =>
        simp only [List.cons_append, patternCompare, if_neg hc, Bool.and_eq_true]
        change _ ∧ patternCompare (p ++ q) t = true ↔ _
        rw [ih t]
        constructor
        · rintro ⟨hcd, t1, t2, ht, h1, h2⟩
          refine ⟨d :: t1, t2, by rw [ht]; rfl, ?_, h2⟩
          simp only [patternCompare, if_neg hc, Bool.and_eq_true]
          exact ⟨hcd, h1⟩
        · rintro ⟨t1, t2, ht, h1, h2⟩
          cases t1 with
          | nil => simp [patternCompare, hc] at h1
          | cons e t1 =>
            injection ht with h3 h4
            subst h3
            simp only [patternCompare, if_neg hc, Bool.and_eq_true] at h1
            exact ⟨h1.1, t1, t2, h4, h1.2, h2⟩

/-- A leading `%` swallows whatever is put in front of the text. -/
theorem patternCompare_percent_prepend (q r t : List Char)
    (h : patternCompare ('%' :: q) t = true) : patternCompare ('%' :: q) (r ++ t) = true := by
  simp only [patternCompare, if_true] at h ⊢
  obtain ⟨u, v, ht, hv⟩ := (anySuffix_iff _ _).mp h
  exact (anySuffix_iff _ _).mpr ⟨r ++ u, v, by rw [ht, List.append_assoc], hv⟩

/-- A search string with a `%` inside: the text splits into a part searched for
what stands before the `%` and a part searched for what stands after it. -/
theorem patternCompare_split (A B T : List Char) :
    patternCompare ('%' :: ((A ++ '%' :: B) ++ ['%'])) T = true ↔
      ∃ T1 T2, T = T1 ++ T2 ∧ patternCompare ('%' :: (A ++ ['%'])) T1 = true ∧
        patternCompare ('%' :: (B ++ ['%'])) T2 = true := by
  have e1 : '%' :: ((A ++ '%' :: B) ++ ['%']) = ('%' :: A) ++ ('%' :: (B ++ ['%'])) := by simp
  have e2 : '%' :: (A ++ ['%']) = ('%' :: A) ++ ['%'] := by simp
  rw [e1, e2, patternCompare_append]
  constructor
  · rintro ⟨T1, T2, hT, h1, h2⟩
    exact ⟨T1, T2, hT, (patternCompare_append _ _ _).mpr ⟨T1, [], by simp, h1, rfl⟩, h2⟩
  · rintro ⟨T1, T2, hT, h1, h2⟩
    obtain ⟨X, Y, hX, h3, _⟩ := (patternCompare_append _ _ _).mp h1
    exact ⟨X, Y ++ T2, by rw [hT, hX, List.append_assoc], h3,
      patternCompare_percent_prepend _ Y T2 h2⟩

/-- A search string without `%`, followed by `%`, matches the texts that start
with a block it accepts character by character. -/
theorem patternCompare_token (t v : List Char) (ht : ∀ c ∈ t, c ≠ '%') :
    patternCompare (t.map utf8Read ++ ['%']) (v.map utf8Read) = true ↔
      ∃ w x, v = w ++ x ∧ List.Forall₂ tokenCharMatches t w := by
  induction t generalizing v with
  | nil =>
    simp only [List.map_nil, List.nil_append]
    exact ⟨fun _ => ⟨[], v, rfl, List.Forall₂.nil⟩, fun _ => patternCompare_percent _⟩
  | cons c t ih =>
    have hc : c ≠ '%' := ht c (List.mem_cons_self _ _)
    have ht2 : ∀ d ∈ t, d ≠ '%' := fun d hd => ht d (List.mem_cons_of_mem _ hd)
    have hc2 : utf8Read c ≠ '%' := fun e => hc ((utf8Read_eq_iff c '%' (by decide)).mp e)
    cases v with
    | nil =>
      constructor
      · intro h
        simp [patternCompare, hc2] at h
      · rintro ⟨w, x, hv, hf⟩
        obtain ⟨d, w2, _, _, hw⟩ := List.forall₂_cons_left_iff.mp hf
        rw [hw] at hv
        simp at hv
    | cons d v =>
      simp only [List.map_cons, List.cons_append, patternCompare, if_neg hc2, Bool.and_eq_true]
      change (utf8Read c == '_' || likeChar (utf8Read c) (utf8Read d)) = true ∧
        patternCompare (t.map utf8Read ++ ['%']) (v.map utf8Read) = true ↔ _
      rw [tokenCharMatches_iff, ih v ht2]
      constructor
      · rintro ⟨h1, w, x, hv, hf⟩
        exact ⟨d :: w, x, by rw [hv]; rfl, List.Forall₂.cons h1 hf⟩
      · rintro ⟨w, x, hv, hf⟩
        obtain ⟨d2, w2, h1, hf2, hw⟩ := List.forall₂_cons_left_iff.mp hf
        rw [hw] at hv
        injection hv with h3 h4
        rw [h3]
        exact ⟨h1, w2, x, h4, hf2⟩

theorem forall₂_plain_eq (t w : List Char) (ht : ∀ c ∈ t, plainChar c)
    (h : List.Forall₂ tokenCharMatches t w) : w = t := by
  induction h with
  | nil => rfl
  | cons h1 _ ih =>
    rw [← tokenCharMatches_plain _ _ (ht _ (List.mem_cons_self _ _)) h1,
      ih (fun c hc => ht c (List.mem_cons_of_mem _ hc))]

theorem forall₂_tokenCharMatches_self (t : List Char) : List.Forall₂ tokenCharMatches t t := by
  induction t with
  | nil => exact List.Forall₂.nil
  | cons c t ih => exact List.Forall₂.cons (tokenCharMatches_self c) ih

theorem cstr_append_of_no_nul (a b : List Char) (ha : ∀ c ∈ a, c ≠ Char.ofNat 0) :
    cstr (a ++ b) = a ++ cstr b := by
  induction a with
  | nil => rfl
  | cons c a ih =>
    have hc : c ≠ Char.ofNat 0 := ha c (List.mem_cons_self _ _)
    have ih2 := ih (fun d hd => ha d (List.mem_cons_of_mem _ hd))
    unfold cstr at ih2 ⊢
    simp only [List.cons_append, List.takeWhile_cons]
    simp [hc, ih2]

theorem cstr_of_no_nul (a : List Char) (ha : ∀ c ∈ a, c ≠ Char.ofNat 0) : cstr a = a := by
  have h := cstr_append_of_no_nul a [] ha
  simpa [cstr] using h

theorem cstr_no_nul (l : List Char) : ∀ c ∈ cstr l, c ≠ Char.ofNat 0 := by
  intro c hc
  have := List.mem_takeWhile_imp hc
  simpa using this

theorem cstr_percent : cstr ['%'] = ['%'] := by decide

/-- The pattern `%s%` as the matcher reads it, for `s` free of NUL. -/
theorem cstr_pattern (s : String) (hs : ∀ c ∈ s.data, c ≠ Char.ofNat 0) :
    (cstr ("%" ++ s ++ "%").data).map utf8Read = '%' :: (s.data.map utf8Read ++ ['%']) := by
  have h1 : ("%" ++ s ++ "%").data = ['%'] ++ (s.data ++ ['%']) := by
    simp [String.data_append]
  have h2 : utf8Read '%' = '%' := by decide
  rw [h1, cstr_append_of_no_nul ['%'] _ (by decide), cstr_append_of_no_nul s.data _ hs, cstr_percent]
  simp [h2]

/-- LIKE with pattern `%s%`, stated on the text the matcher reads: some suffix
of the text is matched by `s` followed by `%`. -/
theorem like_iff (s body : String) (hs : ∀ c ∈ s.data, c ≠ Char.ofNat 0) :
    like ("%" ++ s ++ "%") body = true ↔
      ∃ u v, cstr body.data = u ++ v ∧
        patternCompare (s.data.map utf8Read ++ ['%']) (v.map utf8Read) = true := by
  unfold like
  rw [cstr_pattern s hs]
  simp only [patternCompare, if_true]
  exact anySuffix_map _ _ _

theorem like_of_literalSubstring (s body : String)
    (h : literalSubstring s.data (cstr body.data)) : like ("%" ++ s ++ "%") body = true := by
  obtain ⟨u, v, huv⟩ := h
  have hs : ∀ c ∈ s.data, c ≠ Char.ofNat 0 := by
    intro c hc
    apply cstr_no_nul body.data
    rw [huv]
    simp [hc]
  rw [like_iff s body hs]
  refine ⟨u, s.data ++ v, by rw [huv]; simp, ?_⟩
  rw [List.map_append]
  exact patternCompare_append_self _ ['%'] _ (patternCompare_percent _)

/-- LIKE for a search string without `%`: the body has a block that the string
accepts character by character. -/
theorem like_token_iff (s body : String) (hs : ∀ c ∈ s.data, c ≠ '%' ∧ c ≠ Char.ofNat 0) :
    like ("%" ++ s ++ "%") body = true ↔
      ∃ u w v, cstr body.data = u ++ w ++ v ∧ List.Forall₂ tokenCharMatches s.data w := by
  rw [like_iff s body (fun c hc => (hs c hc).2)]
  constructor
  · rintro ⟨u, v, huv, hm⟩
    obtain ⟨w, x, hv, hf⟩ := (patternCompare_token s.data v (fun c hc => (hs c hc).1)).mp hm
    exact ⟨u, w, x, by rw [huv, hv, List.append_assoc], hf⟩
  · rintro ⟨u, w, v, huv, hf⟩
    exact ⟨u, w ++ v, by rw [huv, List.append_assoc],
      (patternCompare_token s.data _ (fun c hc => (hs c hc).1)).mpr ⟨w, v, rfl, hf⟩⟩

theorem like_plain_iff (s body : String) (hs : ∀ c ∈ s.data, plainChar c) :
    like ("%" ++ s ++ "%") body = true ↔ literalSubstring s.data (cstr body.data) := by
  rw [like_token_iff s body (fun c hc => ⟨(hs c hc).1, (hs c hc).2.2.1⟩)]
  unfold literalSubstring
  constructor
  · rintro ⟨u, w, v, huv, hf⟩
    rw [forall₂_plain_eq s.data w hs hf] at huv
    exact ⟨u, v, huv⟩
  · rintro ⟨u, v, huv⟩
    exact ⟨u, s.data, v, huv, forall₂_tokenCharMatches_self s.data⟩

/-- LIKE for a search string `a%b`: the body splits into a part that satisfies
LIKE for `a` and a part that satisfies LIKE for `b`. -/
theorem like_split (a b body : String) (ha : ∀ c ∈ a.data, c ≠ Char.ofNat 0)
    (hb : ∀ c ∈ b.data, c ≠ Char.ofNat 0) :
    like ("%" ++ (a ++ "%" ++ b) ++ "%") body = true ↔
      ∃ x y : String, cstr body.data = x.data ++ y.data ∧
        like ("%" ++ a ++ "%") x = true ∧ like ("%" ++ b ++ "%") y = true := by
  have hab : ∀ c ∈ (a ++ "%" ++ b).data, c ≠ Char.ofNat 0 := by
    intro c hc
    simp only [String.data_append, List.mem_append] at hc
    rcases hc with (hc | hc) | hc
    · exact ha c hc
    · have e : c = '%' := by simpa using hc
      rw [e]
      decide
    · exact hb c hc
  have hd : (a ++ "%" ++ b).data.map utf8Read =
      a.data.map utf8Read ++ '%' :: b.data.map utf8Read := by
    have h2 : utf8Read '%' = '%' := by decide
    simp [String.data_append, h2]
  have hl : like ("%" ++ (a ++ "%" ++ b) ++ "%") body =
      patternCompare ('%' :: ((a.data.map utf8Read ++ '%' :: b.data.map utf8Read) ++ ['%']))
        ((cstr body.data).map utf8Read) := by
    unfold like
    rw [cstr_pattern _ hab, hd]
  have hx : ∀ (t : String) (x : List Char), (∀ c ∈ t.data, c ≠ Char.ofNat 0) →
      (∀ c ∈ x, c ≠ Char.ofNat 0) →
      like ("%" ++ t ++ "%") (String.mk x) =
        patternCompare ('%' :: (t.data.map utf8Read ++ ['%'])) (x.map utf8Read) := by
    intro t x ht hx
    unfold like
    rw [cstr_pattern t ht, cstr_of_no_nul x hx]
  rw [hl, patternCompare_split]
  constructor
  · rintro ⟨T1, T2, hT, h1, h2⟩
    obtain ⟨x, y, hxy, hx1, hy1⟩ := List.map_eq_append_iff.mp hT
    have hnx : ∀ c ∈ x, c ≠ Char.ofNat 0 := fun c hc =>
      cstr_no_nul body.data c (by rw [hxy]; exact List.mem_append_left _ hc)
    have hny : ∀ c ∈ y, c ≠ Char.ofNat 0 := fun c hc =>
      cstr_no_nul body.data c (by rw [hxy]; exact List.mem_append_right _ hc)
    refine ⟨String.mk x, String.mk y, hxy, ?_, ?_⟩
    · rw [hx a x ha hnx, hx1]
      exact h1
    · rw [hx b y hb hny, hy1]
      exact h2
  · rintro ⟨x, y, hxy, h1, h2⟩
    have hnx : ∀ c ∈ x.data, c ≠ Char.ofNat 0 := fun c hc =>
      cstr_no_nul body.data c (by rw [hxy]; exact List.mem_append_left _ hc)
    have hny : ∀ c ∈ y.data, c ≠ Char.ofNat 0 := fun c hc =>
      cstr_no_nul body.data c (by rw [hxy]; exact List.mem_append_right _ hc)
    refine ⟨x.data.map utf8Read, y.data.map utf8Read, by rw [hxy, List.map_append], ?_, ?_⟩
    · rw [← hx a x.data ha hnx]
      exact h1
    · rw [← hx b y.data hb hny]
      exact h2

/-! ## Searching (C1) -/

/-- On a table that has a row, the search fails exactly when the pattern takes
more than 50000 bytes, and then `searchQuery` exits through `log.Fatal` having
printed nothing. -/
theorem searchQuery_pattern_too_long (db : DB) (s : String) (hrows : db.rows ≠ []) :
    (50000 < ("%" ++ s ++ "%").utf8ByteSize ↔
      searchQuery s db =
        { result := .fatal "SQL logic error: LIKE or GLOB pattern too complex (1)", out := [],
          db := db }) ∧
    (50000 < ("%" ++ s ++ "%").utf8ByteSize ↔ (searchQuery s db).result ≠ .ret ()) := by
  by_cases h : 50000 < ("%" ++ s ++ "%").utf8ByteSize
  · have hsel : db.selectLike ("%" ++ s ++ "%") =
        .error "SQL logic error: LIKE or GLOB pattern too complex (1)" := by
      unfold DB.selectLike
      rw [if_pos ⟨hrows, h⟩]
    unfold searchQuery
    rw [hsel]
    simp [h]
  · have hsel : db.selectLike ("%" ++ s ++ "%") =
        .ok ((db.rows.filter (fun r => like ("%" ++ s ++ "%") r.body)).map
          (fun r => (r.name, r.body))) := by
      unfold DB.selectLike
      rw [if_neg]
      intro h2
      exact h h2.2
    unfold searchQuery
    rw [hsel]
    simp [h]

/-- The names are listed in byte order, not in the order of insertion. -/
theorem listQueries_order :
    (listQueries { rows := [{ id := 1, name := "b", created_at := "2024-01-01 00:00:00", body := "x" },
                            { id := 2, name := "a", created_at := "2024-01-02 00:00:00", body := "y" }],
                   seq := 2 }).out = ["Saved Queries:\n", "  - a\n", "  - b\n"] := by
  decide

/-- C1, counterexample: searching table `oneQuery` (one query, body `abc`) for
`%`, for `ABC` and for `a_c` prints the query each time, although its body
contains none of the three as a literal substring; and searching for U+FFFD
prints the query whose body is `x`, U+FFFF, `y`. -/
theorem searchQuery_literal_counterexample :
    ((searchQuery "%" oneQuery).out = [formatQuery ("a", "abc")] ∧
        ¬ literalSubstring "%".data "abc".data) ∧
    ((searchQuery "ABC" oneQuery).out = [formatQuery ("a", "abc")] ∧
        ¬ literalSubstring "ABC".data "abc".data) ∧
    ((searchQuery "a_c" oneQuery).out = [formatQuery ("a", "abc")] ∧
        ¬ literalSubstring "a_c".data "abc".data) ∧
    ((searchQuery "�" replacementQuery).out = [formatQuery ("r", "x￿y")] ∧
        ¬ literalSubstring "�".data "x￿y".data) := by
  refine ⟨⟨by decide, ?_⟩, ⟨by decide, ?_⟩, ⟨by decide, ?_⟩, ⟨by decide, ?_⟩⟩
  · rintro ⟨u, v, h⟩
    have hm : '%' ∈ "abc".data := by rw [h]; simp
    revert hm
    decide
  · rintro ⟨u, v, h⟩
    have hm : 'A' ∈ "abc".data := by rw [h]; simp
    revert hm
    decide
  · rintro ⟨u, v, h⟩
    have hm : '_' ∈ "abc".data := by rw [h]; simp
    revert hm
    decide
  · rintro ⟨u, v, h⟩
    have hm : '�' ∈ "x￿y".data := by rw [h]; simp
    revert hm
    decide

/-- C1, amended: for a search string `s` whose pattern `%s%` is within SQLite's
length limit, `searchQuery` returns normally, leaves the database alone and
prints exactly the stored queries whose body satisfies `body LIKE '%' || s || '%'`,
in table order.  What that predicate accepts, the body being read up to its
first NUL:

* every body that contains `s` as a literal substring;
* for `s` without `%` and NUL: the bodies with a block of as many characters as
  `s` that `s` accepts place by place, where `_` accepts any character and any
  other character accepts itself, the same ASCII letter in the other case, and
  any of U+FFFD, U+FFFE, U+FFFF if it is one of them;
* for `s` of the form `a%b`, free of NUL: the bodies that split into a part
  accepted for `a` and a part accepted for `b`;
* for `s` of plain characters only (no `%`, `_`, NUL, ASCII letter, U+FFFD,
  U+FFFE, U+FFFF): exactly the bodies that contain `s` as a literal substring. -/
theorem searchQuery_like (db : DB) (s : String)
    (hlen : ("%" ++ s ++ "%").utf8ByteSize ≤ SQLITE_MAX_LIKE_PATTERN_LENGTH) :
    (searchQuery s db).result = .ret () ∧
    (searchQuery s db).db = db ∧
    (searchQuery s db).out =
      (db.rows.filter (fun r => like ("%" ++ s ++ "%") r.body)).map
        (fun r => formatQuery (r.name, r.body)) ∧
    (∀ r ∈ db.rows, literalSubstring s.data (cstr r.body.data) →
      formatQuery (r.name, r.body) ∈ (searchQuery s db).out) ∧
    ((∀ c ∈ s.data, c ≠ '%' ∧ c ≠ Char.ofNat 0) → ∀ r ∈ db.rows,
      (like ("%" ++ s ++ "%") r.body = true ↔
        ∃ u w v, cstr r.body.data = u ++ w ++ v ∧ List.Forall₂ tokenCharMatches s.data w)) ∧
    (∀ a b : String, s = a ++ "%" ++ b → (∀ c ∈ s.data, c ≠ Char.ofNat 0) → ∀ r ∈ db.rows,
      (like ("%" ++ s ++ "%") r.body = true ↔
        ∃ x y : String, cstr r.body.data = x.data ++ y.data ∧
          like ("%" ++ a ++ "%") x = true ∧ like ("%" ++ b ++ "%") y = true)) ∧
    ((∀ c ∈ s.data, plainChar c) → ∀ r ∈ db.rows,
      (like ("%" ++ s ++ "%") r.body = true ↔ literalSubstring s.data (cstr r.body.data))) := by
  have hsel : db.selectLike ("%" ++ s ++ "%") =
      .ok ((db.rows.filter (fun r => like ("%" ++ s ++ "%") r.body)).map (fun r => (r.name, r.body))) := by
    unfold DB.selectLike
    rw [if_neg]
    intro h
    exact absurd hlen (Nat.not_le.mpr h.2)
  have hout : (searchQuery s db).out =
      (db.rows.filter (fun r => like ("%" ++ s ++ "%") r.body)).map
        (fun r => formatQuery (r.name, r.body)) := by
    unfold searchQuery
    rw [hsel]
    simp [List.map_map, Function.comp_def]
  refine ⟨?_, ?_, hout, ?_, ?_, ?_, ?_⟩
  · unfold searchQuery
    rw [hsel]
  · unfold searchQuery
    rw [hsel]
  · intro r hr hlit
    rw [hout]
    exact List.mem_map.mpr ⟨r, List.mem_filter.mpr ⟨hr, like_of_literalSubstring s r.body hlit⟩, rfl⟩
  · intro hs r _
    exact like_token_iff s r.body hs
  · intro a b hab hs r _
    subst hab
    have ha : ∀ c ∈ a.data, c ≠ Char.ofNat 0 := fun c hc =>
      hs c (by simp [String.data_append, hc])
    have hb : ∀ c ∈ b.data, c ≠ Char.ofNat 0 := fun c hc =>
      hs c (by simp [String.data_append, hc])
    exact like_split a b r.body ha hb
  · intro hs r _
    exact like_plain_iff s r.body hs

/-- C1, witness: the scenario of the specification, `search bar` on the table
with bodies `foo` and `foobar`. -/
theorem searchQuery_like_witness :
    ("%" ++ "bar" ++ "%").utf8ByteSize ≤ SQLITE_MAX_LIKE_PATTERN_LENGTH ∧
    (searchQuery "bar" twoQueries).out = [formatQuery ("b", "foobar")] :=
  ⟨by decide, (searchQuery_like twoQueries "bar" (by decide)).2.2.1.trans (by decide)⟩

/-! ## Adding (C2, C3, C4) -/

theorem utf8ByteSize_le_recordSize (name created_at body : String) :
    body.utf8ByteSize ≤ recordSize name created_at body := by
  unfold recordSize textSize
  omega

theorem insert_of_mem (db : DB) (now n b : String) (hn : ∃ r ∈ db.rows, r.name = n) :
    ∃ e, db.insert now n b = .error e := by
  unfold DB.insert
  split_ifs with h1 h2 h3 h4
  · exact ⟨_, rfl⟩
  · exact ⟨_, rfl⟩
  · exact ⟨_, rfl⟩
  · exact ⟨_, rfl⟩
  · exfalso
    apply h3
    obtain ⟨r, hr, hrn⟩ := hn
    exact List.any_eq_true.mpr ⟨r, hr, by simp [hrn]⟩

theorem insert_of_not_mem (db : DB) (now n b : String) (hn : ∀ r ∈ db.rows, r.name ≠ n)
    (hfull : db.lastRowid < MAX_ROWID) (hfit : recordSize n now b ≤ SQLITE_MAX_LENGTH) :
    db.insert now n b =
      .ok { rows := db.rows ++ [{ id := db.lastRowid + 1, name := n, created_at := now, body := b }],
            seq := db.lastRowid + 1 } := by
  have hsize := utf8ByteSize_le_recordSize n now b
  unfold DB.insert
  rw [if_neg (by omega), if_neg (Nat.not_le.mpr hfull), if_neg, if_neg (by omega)]
  intro h
  obtain ⟨r, hr, hrn⟩ := List.any_eq_true.mp h
  exact hn r hr (by simpa using hrn)

theorem insert_ok_rows (db db2 : DB) (now n b : String) (h : db.insert now n b = .ok db2) :
    (∀ r ∈ db.rows, r.name ≠ n) ∧
      db2.rows = db.rows ++ [{ id := db.lastRowid + 1, name := n, created_at := now, body := b }] := by
  unfold DB.insert at h
  split_ifs at h with h1 h2 h3 h4
  injection h with h5
  subst h5
  refine ⟨?_, rfl⟩
  intro r hr hrn
  apply h3
  exact List.any_eq_true.mpr ⟨r, hr, by simp [hrn]⟩

/-- Whenever the editor hands back a text without an error, `saveQuery` returns
`nil`, whatever `onSaveSuccess` returned. -/
theorem saveQuery_result_of_editor_ok (env : Env) (n content : String) (db : DB)
    (he : openEditor env "" = .ret (content, none)) : (saveQuery env n db).result = .ret none := by
  unfold saveQuery
  rw [he]

/-- C2, the code at the failing input: table `oneQuery` already has a query
named `a`; the editor returns the non-empty text `SELECT 2;`.  The insert of
`onSaveSuccess` fails with the uniqueness error, and `saveQuery` returns `nil`
all the same, printing nothing. -/
theorem saveQuery_swallows_duplicate :
    (onSaveSuccess "a" "SELECT 2;" "2024-01-01 00:00:00" oneQuery).result =
        .ret (some ("could not execute insert: " ++
          "constraint failed: UNIQUE constraint failed: queries.name (2067)")) ∧
    saveQuery (quietEnv "SELECT 2;") "a" oneQuery = { result := .ret none, out := [], db := oneQuery } := by
  constructor
  · decide
  · decide

/-- C3: when the table has a query named `n` and the body `b2` is not empty,
`onSaveSuccess n b2` returns an error, prints nothing (so no success message)
and leaves the database exactly as it was: no row added, every row as before. -/
theorem onSaveSuccess_duplicate (db : DB) (n b2 now : String)
    (hn : ∃ r ∈ db.rows, r.name = n) (hb : b2 ≠ "") :
    (∃ e, (onSaveSuccess n b2 now db).result = .ret (some e)) ∧
    (onSaveSuccess n b2 now db).out = [] ∧
    "Query saved successfully!\n" ∉ (onSaveSuccess n b2 now db).out ∧
    (onSaveSuccess n b2 now db).db = db := by
  obtain ⟨e, he⟩ := insert_of_mem db now n b2 hn
  unfold onSaveSuccess
  rw [if_neg hb, he]
  exact ⟨⟨_, rfl⟩, rfl, by simp, rfl⟩

/-- C3, witness: a second `a` on table `oneQuery`. -/
theorem onSaveSuccess_duplicate_witness :
    (∃ r ∈ oneQuery.rows, r.name = "a") ∧ "SELECT 2;" ≠ "" ∧
    (onSaveSuccess "a" "SELECT 2;" "2024-01-03 00:00:00" oneQuery).db = oneQuery :=
  ⟨by decide, by decide,
    (onSaveSuccess_duplicate oneQuery "a" "SELECT 2;" "2024-01-03 00:00:00" (by decide) (by decide)).2.2.2⟩

/-- C4: for a table without a query named `n` and a non-empty body `b`,
`onSaveSuccess n b` succeeds (as long as a rowid is left and the record of the
new row is within SQLite's length limit), and once it has succeeded the lookup
`SELECT name, body FROM queries WHERE name = n` returns the single row `(n, b)`,
which is then what `QueryRow(...).Scan` yields and what `showQuery` prints. -/
theorem onSaveSuccess_roundtrip (db : DB) (n b now : String)
    (hn : ∀ r ∈ db.rows, r.name ≠ n) (hb : b ≠ "") :
    (db.lastRowid < MAX_ROWID → recordSize n now b ≤ SQLITE_MAX_LENGTH →
      (onSaveSuccess n b now db).result = .ret none) ∧
    ((onSaveSuccess n b now db).result = .ret none →
      (onSaveSuccess n b now db).out = ["Query saved successfully!\n"] ∧
      (onSaveSuccess n b now db).db.selectByName n = [(n, b)] ∧
      queryRow ((onSaveSuccess n b now db).db.selectByName n) = some (n, b) ∧
      ∀ env, (showQuery env n (onSaveSuccess n b now db).db).out.head? = some (formatQuery (n, b))) := by
  constructor
  · intro hfull hfit
    unfold onSaveSuccess
    rw [if_neg hb, insert_of_not_mem db now n b hn hfull hfit]
  · intro hres
    have hins : ∃ db2, db.insert now n b = .ok db2 := by
      cases hi : db.insert now n b with
      | error e =>
        unfold onSaveSuccess at hres
        rw [if_neg hb, hi] at hres
        simp at hres
      | ok db2 => exact ⟨db2, rfl⟩
    obtain ⟨db2, hi⟩ := hins
    have hrows := (insert_ok_rows db db2 now n b hi).2
    have hdb : (onSaveSuccess n b now db).db = db2 := by
      unfold onSaveSuccess
      rw [if_neg hb, hi]
    have hout : (onSaveSuccess n b now db).out = ["Query saved successfully!\n"] := by
      unfold onSaveSuccess
      rw [if_neg hb, hi]
    have hsel : db2.selectByName n = [(n, b)] := by
      have h0 : (db.rows.filter (fun r => r.name == n)) = [] := by
        simp only [List.filter_eq_nil_iff]
        intro r hr
        simpa using hn r hr
      unfold DB.selectByName
      rw [hrows, List.filter_append, h0]
      simp
    rw [hdb]
    refine ⟨hout, hsel, by rw [hsel]; rfl, ?_⟩
    intro env
    unfold showQuery
    rw [hsel]
    simp only [queryRow, List.head?_cons]
    cases env.clipboard b <;> rfl

/-- C4, witness: adding `c` with body `SELECT 3;` to table `twoQueries`. -/
theorem onSaveSuccess_roundtrip_witness :
    (∀ r ∈ twoQueries.rows, r.name ≠ "c") ∧ "SELECT 3;" ≠ "" ∧
    (onSaveSuccess "c" "SELECT 3;" "2024-01-03 00:00:00" twoQueries).db.selectByName "c" =
      [("c", "SELECT 3;")] :=
  ⟨by decide, by decide,
    ((onSaveSuccess_roundtrip twoQueries "c" "SELECT 3;" "2024-01-03 00:00:00"
      (by decide) (by decide)).2 (by decide)).2.1⟩

/-! ## Updating (C5) -/

theorem forall₂_updatedRow (n newBody : String) (rows : List Query) :
    List.Forall₂ (updatedRow n newBody) rows
      (rows.map (fun r => if r.name = n then { r with body := newBody } else r)) := by
  induction rows with
  | nil => exact List.Forall₂.nil
  | cons r rows ih =>
    refine List.Forall₂.cons ?_ ih
    unfold updatedRow
    by_cases h : r.name = n <;> simp [h]

theorem selectByName_map_body (rows : List Query) (seq : Nat) (n newBody : String) :
    (DB.mk (rows.map (fun r => if r.name = n then { r with body := newBody } else r)) seq).selectByName n =
      (rows.filter (fun r => r.name == n)).map (fun _ => (n, newBody)) := by
  unfold DB.selectByName
  simp only
  induction rows with
  | nil => rfl
  | cons r rows ih =>
    by_cases h : r.name = n
    · simp [List.filter_cons, h]
      simpa using ih
    · simp [List.filter_cons, h]
      simpa using ih

/-- The UPDATE goes through when the new body and the new record of every row
named `n` are within the length limit. -/
theorem updateBody_ok (db : DB) (newBody n : String)
    (hsize : newBody.utf8ByteSize ≤ SQLITE_MAX_LENGTH)
    (hfit : ∀ r ∈ db.rows, r.name = n → recordSize r.name r.created_at newBody ≤ SQLITE_MAX_LENGTH) :
    db.updateBody newBody n =
      .ok (DB.mk (db.rows.map (fun r => if r.name = n then { r with body := newBody } else r)) db.seq) := by
  unfold DB.updateBody
  rw [if_neg (by omega), if_neg]
  intro h
  obtain ⟨r, hr, hrn⟩ := List.any_eq_true.mp h
  simp only [Bool.and_eq_true, beq_iff_eq, rowTooBig, decide_eq_true_eq] at hrn
  have := hfit r hr hrn.1
  omega

/-- The UPDATE fails when the new record of a row named `n` exceeds the length
limit. -/
theorem updateBody_too_big (db : DB) (newBody n : String)
    (h : ∃ r ∈ db.rows, r.name = n ∧ recordSize r.name r.created_at newBody > SQLITE_MAX_LENGTH) :
    db.updateBody newBody n = .error "string or blob too big (18)" := by
  unfold DB.updateBody
  split_ifs with h1 h2
  · rfl
  · rfl
  · exfalso
    apply h2
    obtain ⟨r, hr, hrn, hbig⟩ := h
    refine List.any_eq_true.mpr ⟨r, hr, ?_⟩
    simp only [Bool.and_eq_true, beq_iff_eq, rowTooBig, decide_eq_true_eq]
    exact ⟨hrn, hbig⟩

/-- The UPDATE either fails or replaces the body in the rows named `n`. -/
theorem updateBody_cases (db : DB) (newBody n : String) :
    (∃ e, db.updateBody newBody n = .error e) ∨
    db.updateBody newBody n =
      .ok (DB.mk (db.rows.map (fun r => if r.name = n then { r with body := newBody } else r)) db.seq) := by
  unfold DB.updateBody
  split_ifs
  · exact Or.inl ⟨_, rfl⟩
  · exact Or.inl ⟨_, rfl⟩
  · exact Or.inr rfl

theorem utf8ByteSize_replicate (n : Nat) :
    (String.mk (List.replicate n 'x')).utf8ByteSize = n := by
  have h : ∀ m, String.utf8ByteSize.go (List.replicate m 'x') = m := by
    intro m
    induction m with
    | zero => rfl
    | succ m ih =>
      rw [List.replicate_succ]
      change String.utf8ByteSize.go (List.replicate m 'x') + 'x'.utf8Size = m + 1
      rw [ih]
      rfl
  exact h n

theorem varintLen_pos (v : Nat) : 0 < varintLen v := by
  unfold varintLen
  split_ifs <;> omega

theorem utf8ByteSize_lt_textSize (t : String) : t.utf8ByteSize < textSize t := by
  have h := varintLen_pos (2 * t.utf8ByteSize + 13)
  unfold textSize
  omega

theorem utf8ByteSize_lt_recordSize (name created_at body : String) :
    body.utf8ByteSize < recordSize name created_at body := by
  have h := utf8ByteSize_lt_textSize body
  unfold recordSize
  omega

theorem varintLen_le_five (v : Nat) (h : v < 2 ^ 35) : varintLen v ≤ 5 := by
  unfold varintLen
  split_ifs <;> omega

/-- A row whose three texts take at most 1000000000 - 17 bytes together is
within the length limit: its header takes at most 17 bytes. -/
theorem recordSize_le_of_sizes (name created_at body : String)
    (h : name.utf8ByteSize + created_at.utf8ByteSize + body.utf8ByteSize + 17 ≤ 1000000000) :
    recordSize name created_at body ≤ SQLITE_MAX_LENGTH := by
  have h1 := varintLen_le_five (2 * name.utf8ByteSize + 13) (by omega)
  have h2 := varintLen_le_five (2 * created_at.utf8ByteSize + 13) (by omega)
  have h3 := varintLen_le_five (2 * body.utf8ByteSize + 13) (by omega)
  unfold recordSize textSize SQLITE_MAX_LENGTH
  omega

/-- A row with a body of 1000000000 bytes or more exceeds the length limit. -/
theorem recordSize_gt_of_body (name created_at body : String)
    (h : 1000000000 ≤ body.utf8ByteSize) :
    recordSize name created_at body > SQLITE_MAX_LENGTH := by
  have h1 := utf8ByteSize_lt_recordSize name created_at body
  unfold SQLITE_MAX_LENGTH
  omega

theorem hugeBody_size : hugeBody.utf8ByteSize = 1000000000 := by
  unfold hugeBody
  exact utf8ByteSize_replicate _

theorem hugeBody_ne (t : String) (ht : t.utf8ByteSize < 1000000000) : hugeBody ≠ t := by
  intro h
  rw [← h, hugeBody_size] at ht
  omega

/-- C5, counterexample: table `oneQuery` has the query `a` with body `abc`; the
new body `hugeBody` is non-empty, and at 1000000000 bytes the record of the row
would exceed SQLite's length limit.  `updateQuery` returns the error of the
UPDATE and the fetch by name still yields the old body, not the new one. -/
theorem updateQuery_huge_counterexample :
    (∃ r ∈ oneQuery.rows, r.name = "a") ∧ hugeBody ≠ "" ∧
    (updateQuery "a" hugeBody oneQuery).result =
      .ret (some "could not update query: string or blob too big (18)") ∧
    queryRow ((updateQuery "a" hugeBody oneQuery).db.selectByName "a") = some ("a", "abc") ∧
    queryRow ((updateQuery "a" hugeBody oneQuery).db.selectByName "a") ≠ some ("a", hugeBody) := by
  have hne : hugeBody ≠ "" := hugeBody_ne "" (by decide)
  have hupd : oneQuery.updateBody hugeBody "a" = .error "string or blob too big (18)" := by
    apply updateBody_too_big
    refine ⟨⟨1, "a", "2024-01-01 00:00:00", "abc"⟩, by decide, rfl, ?_⟩
    have h := utf8ByteSize_lt_recordSize "a" "2024-01-01 00:00:00" hugeBody
    rw [hugeBody_size] at h
    exact h
  have hrun : updateQuery "a" hugeBody oneQuery =
      { result := .ret (some "could not update query: string or blob too big (18)"), out := [],
        db := oneQuery } := by
    unfold updateQuery
    rw [if_neg hne, hupd]
    rfl
  rw [hrun]
  refine ⟨by decide, hne, rfl, by decide, ?_⟩
  intro h
  have h2 : queryRow (oneQuery.selectByName "a") = some ("a", "abc") := by decide
  rw [h2] at h
  injection h with h3
  injection h3 with _ h4
  exact hugeBody_ne "abc" (by decide) h4.symm

/-- C5, amended: when the table has a query named `n` and `newBody` is not
empty, then, if the record of every row named `n` stays within SQLite's length
limit with the new body, `updateQuery n newBody` returns `nil`; afterwards the
lookup by name `n` yields `(n, newBody)` and nothing else; the table has the
same rows in the same order, each with its `id`, `name` and `created_at` as
before, the body being `newBody` in the rows named `n` and the old body
elsewhere; so every row with another name is still there as it was, and the
rowid counter is untouched.  If the record of a row named `n` would exceed the
limit, `updateQuery` returns the error of the UPDATE, prints nothing and leaves
the database as it was.  A record is within the limit when the name, the
timestamp and the new body take at most 1000000000 - 17 bytes together, and
exceeds it when the new body takes 1000000000 bytes or more. -/
theorem updateQuery_frame (db : DB) (n newBody : String)
    (hn : ∃ r ∈ db.rows, r.name = n) (hb : newBody ≠ "") :
    ((∀ r ∈ db.rows, r.name = n → recordSize r.name r.created_at newBody ≤ SQLITE_MAX_LENGTH) →
      (updateQuery n newBody db).result = .ret none ∧
      queryRow ((updateQuery n newBody db).db.selectByName n) = some (n, newBody) ∧
      (∀ p ∈ (updateQuery n newBody db).db.selectByName n, p = (n, newBody)) ∧
      List.Forall₂ (updatedRow n newBody) db.rows (updateQuery n newBody db).db.rows ∧
      (∀ r ∈ db.rows, r.name ≠ n → r ∈ (updateQuery n newBody db).db.rows) ∧
      (updateQuery n newBody db).db.seq = db.seq) ∧
    ((∃ r ∈ db.rows, r.name = n ∧ recordSize r.name r.created_at newBody > SQLITE_MAX_LENGTH) →
      (∃ e, (updateQuery n newBody db).result = .ret (some ("could not update query: " ++ e))) ∧
      (updateQuery n newBody db).out = [] ∧
      (updateQuery n newBody db).db = db) ∧
    (∀ r : Query,
      r.name.utf8ByteSize + r.created_at.utf8ByteSize + newBody.utf8ByteSize + 17 ≤ 1000000000 →
        recordSize r.name r.created_at newBody ≤ SQLITE_MAX_LENGTH) ∧
    (1000000000 ≤ newBody.utf8ByteSize →
      ∀ r : Query, recordSize r.name r.created_at newBody > SQLITE_MAX_LENGTH) := by
  refine ⟨?_, ?_, fun r h => recordSize_le_of_sizes _ _ _ h,
    fun h r => recordSize_gt_of_body _ _ _ h⟩
  · intro hfit
    have hsize : newBody.utf8ByteSize ≤ SQLITE_MAX_LENGTH := by
      obtain ⟨r, hr, hrn⟩ := hn
      have h1 := hfit r hr hrn
      have h2 := utf8ByteSize_le_recordSize r.name r.created_at newBody
      omega
    have hupd := updateBody_ok db newBody n hsize hfit
    have hrun : updateQuery n newBody db =
        { result := .ret none, out := ["Query updated successfully!\n"],
          db := DB.mk (db.rows.map (fun r => if r.name = n then { r with body := newBody } else r))
            db.seq } := by
      unfold updateQuery
      rw [if_neg hb, hupd]
    have hres : (updateQuery n newBody db).result = .ret none := by rw [hrun]
    have hdb : (updateQuery n newBody db).db =
        DB.mk (db.rows.map (fun r => if r.name = n then { r with body := newBody } else r))
          db.seq := by rw [hrun]
    rw [hres, hdb, selectByName_map_body]
    refine ⟨rfl, ?_, ?_, ?_, ?_, rfl⟩
    · obtain ⟨r, hr, hrn⟩ := hn
      have hmem : r ∈ db.rows.filter (fun r => r.name == n) :=
        List.mem_filter.mpr ⟨hr, by simp [hrn]⟩
      cases hf : db.rows.filter (fun r => r.name == n) with
      | nil => rw [hf] at hmem; exact absurd hmem (List.not_mem_nil _)
      | cons a l => rfl
    · intro p hp
      obtain ⟨_, _, h⟩ := List.mem_map.mp hp
      exact h.symm
    · exact forall₂_updatedRow n newBody db.rows
    · intro r hr hrn
      exact List.mem_map.mpr ⟨r, hr, by simp [hrn]⟩
  · intro hbig
    have hupd := updateBody_too_big db newBody n hbig
    unfold updateQuery
    rw [if_neg hb, hupd]
    exact ⟨⟨_, rfl⟩, rfl, rfl⟩

/-- C5, witness: giving query `b` of table `twoQueries` the body `SELECT 2;`. -/
theorem updateQuery_frame_witness :
    (∃ r ∈ twoQueries.rows, r.name = "b") ∧ "SELECT 2;" ≠ "" ∧
    (∀ r ∈ twoQueries.rows, r.name = "b" →
      recordSize r.name r.created_at "SELECT 2;" ≤ SQLITE_MAX_LENGTH) ∧
    queryRow ((updateQuery "b" "SELECT 2;" twoQueries).db.selectByName "b") = some ("b", "SELECT 2;") :=
  ⟨by decide, by decide, by decide,
    ((updateQuery_frame twoQueries "b" "SELECT 2;" (by decide) (by decide)).1 (by decide)).2.1⟩

/-! ## Deleting (C6) -/

theorem selectByName_delete (db : DB) (n : String) : (db.delete n).selectByName n = [] := by
  unfold DB.selectByName DB.delete
  simp only [List.map_eq_nil_iff, List.filter_eq_nil_iff]
  intro r hr
  have h := (List.mem_filter.mp hr).2
  simpa using h

/-- C6: `deleteQuery n` returns `nil` and reports success on every table,
whether or not it has a query named `n`.  Afterwards `showQuery` and
`editQuery` both return the error `no query found with name n` and print
nothing; the rows left are exactly the former rows whose name is not `n`, each
as it was; and a table that had no query named `n` is left identical. -/
theorem deleteQuery_then_not_found (env : Env) (db : DB) (n : String) :
    (deleteQuery n db).result = .ret none ∧
    (deleteQuery n db).out = ["Query deleted successfully!\n"] ∧
    showQuery env n (deleteQuery n db).db =
      { result := .ret (some ("no query found with name " ++ n)), out := [],
        db := (deleteQuery n db).db } ∧
    editQuery env n (deleteQuery n db).db =
      { result := .ret (some ("no query found with name " ++ n)), out := [],
        db := (deleteQuery n db).db } ∧
    (∀ r, r ∈ (deleteQuery n db).db.rows ↔ (r ∈ db.rows ∧ r.name ≠ n)) ∧
    (deleteQuery n db).db.rows = db.rows.filter (fun r => r.name != n) ∧
    ((∀ r ∈ db.rows, r.name ≠ n) → (deleteQuery n db).db = db) := by
  have hdb : (deleteQuery n db).db = db.delete n := rfl
  have hsel := selectByName_delete db n
  refine ⟨rfl, rfl, ?_, ?_, ?_, rfl, ?_⟩
  · rw [hdb]
    unfold showQuery
    rw [hsel]
    rfl
  · rw [hdb]
    unfold editQuery
    rw [hsel]
    rfl
  · intro r
    rw [hdb]
    unfold DB.delete
    simp [List.mem_filter]
  · intro h
    rw [hdb]
    unfold DB.delete
    have hf : db.rows.filter (fun r => r.name != n) = db.rows := by
      rw [List.filter_eq_self]
      intro r hr
      simpa using h r hr
    rw [hf]

/-- C6, witness: deleting the missing name `zzz` from table `twoQueries`. -/
theorem deleteQuery_then_not_found_witness :
    (∀ r ∈ twoQueries.rows, r.name ≠ "zzz") ∧
    (deleteQuery "zzz" twoQueries).db = twoQueries :=
  ⟨by decide,
    (deleteQuery_then_not_found (quietEnv "") twoQueries "zzz").2.2.2.2.2.2 (by decide)⟩

/-! ## Empty bodies (C7) -/

theorem onSaveSuccess_bodies (n b now : String) (db : DB) (h : bodiesNonEmpty db) :
    bodiesNonEmpty (onSaveSuccess n b now db).db := by
  unfold onSaveSuccess
  by_cases hb : b = ""
  · rw [if_pos hb]
    exact h
  · rw [if_neg hb]
    cases hi : db.insert now n b with
    | error e => exact h
    | ok db2 =>
      have hrows := (insert_ok_rows db db2 now n b hi).2
      intro r hr
      change r ∈ db2.rows at hr
      rw [hrows, List.mem_append, List.mem_singleton] at hr
      rcases hr with hr | hr
      · exact h r hr
      · rw [hr]
        exact hb

theorem updateQuery_bodies (n b : String) (db : DB) (h : bodiesNonEmpty db) :
    bodiesNonEmpty (updateQuery n b db).db := by
  unfold updateQuery
  by_cases hb : b = ""
  · rw [if_pos hb]
    exact h
  · rw [if_neg hb]
    rcases updateBody_cases db b n with ⟨e, he⟩ | hok
    · rw [he]
      exact h
    · rw [hok]
      intro r hr
      obtain ⟨r0, hr0, hr1⟩ := List.mem_map.mp hr
      by_cases hn : r0.name = n
      · rw [if_pos hn] at hr1
        rw [← hr1]
        exact hb
      · rw [if_neg hn] at hr1
        rw [← hr1]
        exact h r0 hr0

theorem deleteQuery_bodies (n : String) (db : DB) (h : bodiesNonEmpty db) :
    bodiesNonEmpty (deleteQuery n db).db := by
  intro r hr
  change r ∈ (db.delete n).rows at hr
  unfold DB.delete at hr
  exact h r (List.mem_filter.mp hr).1

theorem saveQuery_bodies (env : Env) (n : String) (db : DB) (h : bodiesNonEmpty db) :
    bodiesNonEmpty (saveQuery env n db).db := by
  unfold saveQuery
  split
  · exact h
  · exact h
  · exact h
  · exact onSaveSuccess_bodies n _ env.now db h

theorem editQuery_bodies (env : Env) (n : String) (db : DB) (h : bodiesNonEmpty db) :
    bodiesNonEmpty (editQuery env n db).db := by
  unfold editQuery
  split
  · exact h
  · split
    · exact h
    · exact h
    · exact h
    · exact updateQuery_bodies n _ db h

theorem showQuery_db (env : Env) (n : String) (db : DB) : (showQuery env n db).db = db := by
  unfold showQuery
  split
  · rfl
  · split <;> rfl

theorem searchQuery_db (s : String) (db : DB) : (searchQuery s db).db = db := by
  unfold searchQuery
  split <;> rfl

theorem discard_db {α : Type} (r : Run α) : (discard r).db = r.db := by
  unfold discard
  split <;> rfl

theorem main_bodies (env : Env) (args : List String) (db : DB) (h : bodiesNonEmpty db) :
    bodiesNonEmpty (main env args db).db := by
  unfold main
  split
  · exact h
  · exact h
  · split_ifs
    · split
      · exact h
      · rw [discard_db]
        exact saveQuery_bodies env _ db h
    · split
      · exact h
      · rw [searchQuery_db]
        exact h
    · split
      · exact h
      · rw [discard_db]
        exact deleteQuery_bodies _ db h
    · split
      · exact h
      · rw [discard_db]
        exact editQuery_bodies env _ db h
    · exact h
    · split
      · exact h
      · rw [discard_db, showQuery_db]
        exact h
    · exact h

theorem runAll_bodies (runs : List (Env × List String)) (db : DB) (h : bodiesNonEmpty db) :
    bodiesNonEmpty (runAll runs db) := by
  induction runs generalizing db with
  | nil => exact h
  | cons a rest ih =>
    obtain ⟨env, args⟩ := a
    exact ih _ (main_bodies env args db h)

/-- C7: with an empty body, `onSaveSuccess` and `updateQuery` return `nil`,
print their notice and hand back the very same database, whatever the name and
the table.  Hence `saveQuery` and `editQuery` leave the database alone when the
editor returns the empty text, and, starting from a table whose bodies are all
non-empty, the bodies are all non-empty after `saveQuery`, after `editQuery`,
after `deleteQuery`, and after any sequence of runs of the program, whatever
their arguments and surroundings. -/
theorem empty_body_never_stored (db : DB) (n now : String) :
    onSaveSuccess n "" now db =
      { result := .ret none, out := ["Editor was empty, please type a query to save it\n"], db := db } ∧
    updateQuery n "" db =
      { result := .ret none,
        out := ["Query body was empty, if you want to delete a query use the delete command\n"],
        db := db } ∧
    (∀ env, openEditor env "" = .ret ("", none) → (saveQuery env n db).db = db) ∧
    (∀ env body, queryRow (db.selectByName n) = some (n, body) →
      openEditor env body = .ret ("", none) → (editQuery env n db).db = db) ∧
    (bodiesNonEmpty db →
      (∀ env, bodiesNonEmpty (saveQuery env n db).db) ∧
      (∀ env, bodiesNonEmpty (editQuery env n db).db) ∧
      bodiesNonEmpty (deleteQuery n db).db ∧
      ∀ runs, bodiesNonEmpty (runAll runs db)) := by
  refine ⟨rfl, rfl, ?_, ?_, ?_⟩
  · intro env he
    unfold saveQuery
    rw [he]
    rfl
  · intro env body hq he
    unfold editQuery
    rw [hq]
    simp only
    rw [he]
    rfl
  · intro h
    exact ⟨fun env => saveQuery_bodies env n db h, fun env => editQuery_bodies env n db h,
      deleteQuery_bodies n db h, fun runs => runAll_bodies runs db h⟩

/-- C7, witness: on table `twoQueries`, an `add` and an `edit` whose editor
returns the empty text, then a `delete`. -/
theorem empty_body_never_stored_witness :
    bodiesNonEmpty twoQueries ∧
    bodiesNonEmpty (runAll [(quietEnv "", ["qsave", "add", "c"]), (quietEnv "", ["qsave", "edit", "a"]),
      (quietEnv "", ["qsave", "delete", "b"])] twoQueries) :=
  ⟨by unfold bodiesNonEmpty; decide,
    ((empty_body_never_stored twoQueries "c" "2024-01-03 00:00:00").2.2.2.2
      (by unfold bodiesNonEmpty; decide)).2.2.2 _⟩

/-! ## Dispatcher (C8) -/

/-- A subcommand that is none of the six falls through the `switch`: nothing
is printed, nothing is changed. -/
theorem main_unknown_command (env : Env) (prog command : String) (rest : List String) (db : DB)
    (h1 : command ≠ "add") (h2 : command ≠ "search") (h3 : command ≠ "delete")
    (h4 : command ≠ "edit") (h5 : command ≠ "list") (h6 : command ≠ "show") :
    main env (prog :: command :: rest) db = { result := .ret (), out := [], db := db } := by
  unfold main
  simp only [if_neg h1, if_neg h2, if_neg h3, if_neg h4, if_neg h5, if_neg h6]

/-- C8, the code at the failing input: with the unknown subcommand
`frobnicate`, `main` returns normally and leaves the database alone, but prints
nothing at all, whereas without a subcommand it prints the usage line. -/
theorem main_unknown_prints_nothing :
    main (quietEnv "") ["qsave", "frobnicate"] twoQueries =
      { result := .ret (), out := [], db := twoQueries } ∧
    main (quietEnv "") ["qsave"] twoQueries =
      { result := .ret (), out := ["Usage: qsave [add|list|search|delete] [args]\n"], db := twoQueries } := by
  constructor
  · decide
  · decide

/-! ## Editor command (C9, C10) -/

theorem foldl_filterArgs (acc parts : List String) :
    parts.foldl (fun filteredArgs arg =>
        if arg ≠ "--wait" ∧ arg ≠ "-w" then filteredArgs ++ [arg] else filteredArgs) acc =
      acc ++ parts.filter (fun arg => arg != "--wait" && arg != "-w") := by
  induction parts generalizing acc with
  | nil => simp
  | cons a parts ih =>
    rw [List.foldl_cons, ih]
    by_cases h : a ≠ "--wait" ∧ a ≠ "-w"
    · rw [if_pos h]
      have hp : (a != "--wait" && a != "-w") = true := by simpa using h
      simp [List.filter_cons, hp]
    · rw [if_neg h]
      have hp : ¬ (a != "--wait" && a != "-w") = true := by simpa using h
      simp [List.filter_cons, hp]

theorem filterArgs_eq_filter (parts : List String) :
    filterArgs parts = parts.filter (fun arg => arg != "--wait" && arg != "-w") := by
  unfold filterArgs
  rw [foldl_filterArgs]
  rfl

/-- C9: when the editor string splits into the fields `executable :: rest`, the
command of `openEditor` has `executable` as its executable and as arguments the
fields of `rest` other than `--wait` and `-w`, in their order, followed by the
name of the temporary file; and that is the command `openEditor` runs once the
temporary file is there. -/
theorem editorCommand_spec (editorFull tmpName executable : String) (rest : List String)
    (h : fields editorFull = executable :: rest) :
    editorCommand editorFull tmpName =
      some (executable, rest.filter (fun arg => arg != "--wait" && arg != "-w") ++ [tmpName]) ∧
    (∀ (env : Env) (initialContent : String), getEditor env = editorFull →
      env.createTemp = .ok tmpName →
      (if initialContent ≠ "" then env.writeString initialContent else none) = none →
      openEditor env initialContent =
        match env.run executable
            (rest.filter (fun arg => arg != "--wait" && arg != "-w") ++ [tmpName]) initialContent with
        | some e => .ret ("", some e)
        | none => .ret (env.readFile executable
            (rest.filter (fun arg => arg != "--wait" && arg != "-w") ++ [tmpName]) initialContent)) := by
  have hcmd : editorCommand editorFull tmpName =
      some (executable, rest.filter (fun arg => arg != "--wait" && arg != "-w") ++ [tmpName]) := by
    unfold editorCommand
    rw [h]
    simp only
    rw [filterArgs_eq_filter]
  refine ⟨hcmd, ?_⟩
  intro env initialContent he ht hw
  unfold openEditor
  rw [ht]
  simp only
  rw [hw]
  simp only
  rw [he, hcmd]

/-- C9, witness: the editor string `code --wait  -n<TAB>-w`, whose fields are
`code`, `--wait`, `-n` and `-w`. -/
theorem editorCommand_spec_witness :
    fields "code --wait  -n\t-w" = "code" :: ["--wait", "-n", "-w"] ∧
    editorCommand "code --wait  -n\t-w" "/tmp/example-1.txt" =
      some ("code", ["-n", "/tmp/example-1.txt"]) :=
  ⟨by decide,
    (editorCommand_spec "code --wait  -n\t-w" "/tmp/example-1.txt" "code" ["--wait", "-n", "-w"]
      (by decide)).1.trans (by decide)⟩

/-- C10, the code at the failing input: with `EDITOR` set to one blank,
`getEditor` returns that blank, `strings.Fields` finds no field in it, the
command has no executable and `openEditor` panics on `parts[1:]`; so does
`qsave add x`, which leaves the database as it was. -/
theorem openEditor_panics_on_blank_editor :
    getEditor { quietEnv "SELECT 1;" with EDITOR := " " } = " " ∧
    fields " " = [] ∧
    editorCommand " " "/tmp/example-1.txt" = none ∧
    openEditor { quietEnv "SELECT 1;" with EDITOR := " " } "" =
      .panic "runtime error: slice bounds out of range [1:0]" ∧
    main { quietEnv "SELECT 1;" with EDITOR := " " } ["qsave", "add", "x"] oneQuery =
      { result := .panic "runtime error: slice bounds out of range [1:0]", out := [], db := oneQuery } := by
  refine ⟨by decide, by decide, by decide, by decide, by decide⟩

end Qsave
